import Mathlib

/-!
# Verification of the P2P academic library core (knowledge-exchange)

A shallow embedding of the peer / reputation / file-index / throttling /
transfer logic of the repository, with theorems settling the spec's claims.

Modelling conventions:
* Go `float64` reputation scores, ratios and deltas are embedded as `ℚ`;
  every arithmetic operation performed on them in the source (addition,
  subtraction, division of small counters, comparison against constant
  thresholds) is exact on the values the program produces.
* Go `int` / `int64` counters are embedded as `ℕ` (all reachable values in
  the source are non-negative, and Go's integer division on non-negative
  operands agrees with `Nat` division).
* Go maps keyed by strings are embedded as association lists whose `Add`
  overwrites the entry with the same key, matching map-assignment semantics.
* Wall-clock fields (`LastSeen`, `UploadTime`, `StartTime`, `EndTime`,
  timestamps) carry no logic relevant to the claims and are omitted.
* SHA-256 (`GenerateCID` / `GenerateChecksum` / `utils.HashFile`, all the
  same digest of the content bytes) is a cryptographic primitive; it is
  embedded as an explicit function parameter `hash : List ℕ → String` of the
  operations that invoke it, applied to the full content bytes exactly where
  the source applies the digest.
-/

namespace KX

/-! ## models/student.go -/

/-- Reputation constants of the `models` package (student.go). -/
def Models.MinReputation : ℚ := 3

def Models.MaxReputation : ℚ := 10

def Models.DefaultReputation : ℚ := 5

/-- `models.Student`: a peer record.  Wall-clock field `LastSeen` omitted. -/
structure Student where
  id : String
  name : String
  reputationScore : ℚ
  isLeecher : Bool
  isOnline : Bool
  totalUploads : ℕ
  totalDownloads : ℕ
  ipAddress : String
  port : ℕ
deriving Repr, DecidableEq

/-- `models.NewStudent`: factory with default reputation 5.0, online, not a
leecher, zero counters. -/
def NewStudent (id name ipAddress : String) (port : ℕ) : Student :=
  { id := id
    name := name
    reputationScore := Models.DefaultReputation
    isLeecher := false
    isOnline := true
    totalUploads := 0
    totalDownloads := 0
    ipAddress := ipAddress
    port := port }

/-- `(*Student).CanDownload`: reputation at least `models.MinReputation` (3.0). -/
def Student.CanDownload (s : Student) : Bool :=
  if s.reputationScore ≥ Models.MinReputation then true else false

/-- `(*Student).checkLeecherStatus`: downloads and uploads both positive sets
the flag from the download/upload ratio being above 3; more than 5 downloads
with zero uploads sets it; otherwise the flag is left as it was. -/
def Student.checkLeecherStatus (s : Student) : Student :=
  if s.totalDownloads > 0 ∧ s.totalUploads > 0 then
    let r : ℚ := (s.totalDownloads : ℚ) / (s.totalUploads : ℚ)
    { s with isLeecher := decide (r > 3) }
  else if s.totalDownloads > 5 ∧ s.totalUploads = 0 then
    { s with isLeecher := true }
  else
    s

/-- `(*Student).UpdateReputation`: add the delta, clamp above at
`models.MaxReputation` and below at 0, then refresh the leecher flag. -/
def Student.UpdateReputation (s : Student) (delta : ℚ) : Student :=
  let s1 := { s with reputationScore := s.reputationScore + delta }
  let s2 :=
    if s1.reputationScore > Models.MaxReputation then
      { s1 with reputationScore := Models.MaxReputation }
    else if s1.reputationScore < 0 then
      { s1 with reputationScore := 0 }
    else s1
  s2.checkLeecherStatus

/-- `(*Student).RecordUpload` (wall-clock update omitted). -/
def Student.RecordUpload (s : Student) : Student :=
  Student.UpdateReputation { s with totalUploads := s.totalUploads + 1 } (1/2)

/-- `(*Student).RecordDownload` (wall-clock update omitted). -/
def Student.RecordDownload (s : Student) : Student :=
  Student.checkLeecherStatus { s with totalDownloads := s.totalDownloads + 1 }

/-- `models.PeerRegistry`: map from peer id to record, embedded as a list of
students whose ids act as keys (the source map holds one entry per id; lookups
take the first match). -/
def findStudent (registry : List Student) (studentID : String) : Option Student :=
  registry.find? (fun s => s.id == studentID)

/-! ## analytics/reputation.go -/

/-- Reputation constants of the `analytics` package (reputation.go).  Note the
package-local `MinReputation` is 0.0, not the 3.0 of the `models` package. -/
def Analytics.MinReputation : ℚ := 0

def Analytics.MaxReputation : ℚ := 10

def Analytics.DownloadThreshold : ℚ := 3

def Analytics.UploadBonus : ℚ := 1/2

def Analytics.DownloadPenalty : ℚ := 1/10

def Analytics.GoodRatingBonus : ℚ := 3/10

def Analytics.BadRatingPenalty : ℚ := 1/5

def Analytics.LeecherPenalty : ℚ := 1/2

def Analytics.InactivityDecay : ℚ := 1/10

/-- `analytics.ReputationEvent` (timestamp omitted). -/
structure ReputationEvent where
  type : String
  studentID : String
  delta : ℚ
  reason : String
deriving Repr, DecidableEq

/-- The state a `ReputationService` mutates: the shared peer registry and the
append-only event history. -/
structure RepState where
  registry : List Student
  eventHistory : List ReputationEvent
deriving Repr, DecidableEq

/-- Replace the (first) registry entry with the given id by its
reputation-updated version; the source looks the pointer up in the map and
mutates it in place. -/
def updateStudentRep : List Student → String → ℚ → List Student
  | [], _, _ => []
  | s :: rest, studentID, delta =>
      if s.id == studentID then Student.UpdateReputation s delta :: rest
      else s :: updateStudentRep rest studentID delta

/-- `(*ReputationService).applyEvent`: unknown peer is a no-op (the early
return precedes the history append); otherwise the delta is applied through
`Student.UpdateReputation` and the event is appended to the history. -/
def ReputationService.applyEvent (st : RepState) (event : ReputationEvent) : RepState :=
  match findStudent st.registry event.studentID with
  | none => st
  | some _ =>
      { registry := updateStudentRep st.registry event.studentID event.delta
        eventHistory := st.eventHistory ++ [event] }

/-- `(*ReputationService).CalculateReputation`: base score, ratio adjustment
(only when downloads are positive; uploads/downloads below 0.5 subtracts 1.0,
above 1.5 adds 0.5), then clamp below at `analytics.MinReputation` (0) and
above at `analytics.MaxReputation` (10). -/
def ReputationService.CalculateReputation (s : Student) : ℚ :=
  let base := s.reputationScore
  let base1 :=
    if s.totalDownloads > 0 then
      let r : ℚ := (s.totalUploads : ℚ) / (s.totalDownloads : ℚ)
      if r < 1/2 then base - 1
      else if r > 3/2 then base + 1/2
      else base
    else base
  let base2 := if base1 < Analytics.MinReputation then Analytics.MinReputation else base1
  if base2 > Analytics.MaxReputation then Analytics.MaxReputation else base2

/-- Decimal rendering of a non-negative rational to one fractional digit,
embedding `fmt.Sprintf("%.1f", x)` on the scores produced here: `10 x`
rounded to the nearest integer (`floor(10 x + 1/2)`, computed on the reduced
fraction as `(20 num + den) / (2 den)` in exact integer arithmetic), printed
as integer part, dot, tenths digit.  Every score the service formats is an
exact non-negative multiple of one tenth, on which no rounding occurs and
this agrees with Go's rendering. -/
def fmtOneDecimal (q : ℚ) : String :=
  let n := ((20 * q.num + (q.den : ℤ)) / (2 * (q.den : ℤ))).toNat
  toString (n / 10) ++ "." ++ toString (n % 10)

/-- `(*ReputationService).CanDownload`: unknown peer denied with "Student not
found"; effective reputation below the 3.0 threshold denied with the formatted
shortfall message; otherwise allowed. -/
def ReputationService.CanDownload (registry : List Student) (studentID : String) :
    Bool × String :=
  match findStudent registry studentID with
  | none => (false, "Student not found")
  | some s =>
      let reputation := ReputationService.CalculateReputation s
      if reputation < Analytics.DownloadThreshold then
        (false, "Insufficient reputation (" ++ fmtOneDecimal reputation ++ " < " ++
          fmtOneDecimal Analytics.DownloadThreshold ++ ")")
      else
        (true, "Allowed")

/-! ## models/file.go -/

/-- `models.AcademicFile` (wall-clock field `UploadTime` omitted). -/
structure AcademicFile where
  cid : String
  fileName : String
  ownerID : String
  size : ℤ
  fileType : String
  description : String
  subject : String
  downloadCount : ℕ
  averageRating : ℚ
  totalRatings : ℕ
  peerLocations : List String
  isAvailable : Bool
  checksum : String
deriving Repr, DecidableEq

/-- `models.NewAcademicFile`: CID and checksum are both the SHA-256 hex digest
of the content (the source's `GenerateCID` and `GenerateChecksum` compute the
identical digest), the owner is the first peer location, availability starts
true. -/
def NewAcademicFile (hash : List ℕ → String) (fileName ownerID : String) (size : ℤ)
    (fileType : String) (content : List ℕ) : AcademicFile :=
  { cid := hash content
    fileName := fileName
    ownerID := ownerID
    size := size
    fileType := fileType
    description := ""
    subject := ""
    downloadCount := 0
    averageRating := 0
    totalRatings := 0
    peerLocations := [ownerID]
    isAvailable := true
    checksum := hash content }

/-- `(*AcademicFile).AddPeerLocation`: append unless already present.  The
source does not touch `IsAvailable` here. -/
def AcademicFile.AddPeerLocation (f : AcademicFile) (peerID : String) : AcademicFile :=
  if f.peerLocations.contains peerID then f
  else { f with peerLocations := f.peerLocations ++ [peerID] }

/-- `(*AcademicFile).RemovePeerLocation`: rebuild the list without the peer and
recompute `IsAvailable` from non-emptiness. -/
def AcademicFile.RemovePeerLocation (f : AcademicFile) (peerID : String) : AcademicFile :=
  let newLocations := f.peerLocations.filter (fun pid => pid != peerID)
  { f with peerLocations := newLocations, isAvailable := newLocations.length > 0 }

/-- `models.FileIndex`: map from CID to file, embedded as a key-value list. -/
structure FileIndex where
  files : List (String × AcademicFile)
deriving Repr, DecidableEq

/-- `(*FileIndex).Add`: map assignment `fi.files[file.CID] = file` — inserts or
overwrites the entry under the file's CID. -/
def FileIndex.Add (fi : FileIndex) (f : AcademicFile) : FileIndex :=
  { files := (f.cid, f) :: fi.files.filter (fun kv => kv.1 != f.cid) }

/-- `(*FileIndex).Get`. -/
def FileIndex.Get (fi : FileIndex) (cid : String) : Option AcademicFile :=
  (fi.files.find? (fun kv => kv.1 == cid)).map (fun kv => kv.2)

/-- `containsIgnoreCase` (file.go): the helper `Search` matches with.  Its body
never inspects the characters beyond whole-string equality: it returns true
whenever both strings are non-empty and either they are equal or `s` is
strictly longer than `substr`. -/
def containsIgnoreCase (s substr : String) : Bool :=
  s.length > 0 && substr.length > 0 && (s == substr || s.length > substr.length)

/-- `(*FileIndex).Search`: keep the files for which `containsIgnoreCase`
accepts the file name, description or subject against the query. -/
def FileIndex.Search (fi : FileIndex) (query : String) : List AcademicFile :=
  (fi.files.map (fun kv => kv.2)).filter (fun f =>
    containsIgnoreCase f.fileName query ||
    containsIgnoreCase f.description query ||
    containsIgnoreCase f.subject query)

/-- Whether `pat` occurs at the head of `l`. -/
def headMatch : List Char → List Char → Bool
  | [], _ => true
  | _ :: _, [] => false
  | a :: as, b :: bs => a == b && headMatch as bs

/-- Whether `pat` occurs contiguously anywhere in `l`. -/
def occursIn (pat : List Char) : List Char → Bool
  | [] => headMatch pat []
  | b :: bs => headMatch pat (b :: bs) || occursIn pat bs

/-- Following the spec's words (the definition `Search`'s behaviour is compared
against): `s` contains `substr` as a case-insensitive substring. -/
def specContainsIgnoreCase (s substr : String) : Bool :=
  occursIn (substr.data.map Char.toLower) (s.data.map Char.toLower)

/-! ## analytics/throttling.go -/

def Throttling.LeecherBandwidth : ℕ := 50 * 1024

def Throttling.NormalBandwidth : ℕ := 500 * 1024

def Throttling.PremiumBandwidth : ℕ := 5 * 1024 * 1024

def Throttling.LeecherThreshold : ℚ := 3

def Throttling.PremiumThreshold : ℚ := 8

def Throttling.TokenBucketSize : ℕ := 10

/-- `analytics.BandwidthTier`. -/
inductive BandwidthTier where
  | leecher
  | normal
  | premium
deriving Repr, DecidableEq

/-- `BandwidthTier.GetBandwidth`. -/
def BandwidthTier.GetBandwidth : BandwidthTier → ℕ
  | .leecher => Throttling.LeecherBandwidth
  | .normal => Throttling.NormalBandwidth
  | .premium => Throttling.PremiumBandwidth

/-- `analytics.determineTier`: below 3.0 Leecher, at least 8.0 Premium,
otherwise Normal. -/
def determineTier (reputation : ℚ) : BandwidthTier :=
  if reputation < Throttling.LeecherThreshold then .leecher
  else if reputation ≥ Throttling.PremiumThreshold then .premium
  else .normal

/-- `analytics.Throttler`: per-peer token bucket. -/
structure Throttler where
  peerID : String
  tier : BandwidthTier
  bandwidth : ℕ
  tokens : ℕ
  maxTokens : ℕ
  tokenSize : ℕ
deriving Repr, DecidableEq

/-- `analytics.NewThrottler`: tier from reputation, token size is the tier
bandwidth divided by the bucket size, bucket starts full. -/
def NewThrottler (peerID : String) (reputation : ℚ) : Throttler :=
  let tier := determineTier reputation
  let bandwidth := tier.GetBandwidth
  { peerID := peerID
    tier := tier
    bandwidth := bandwidth
    tokens := Throttling.TokenBucketSize
    maxTokens := Throttling.TokenBucketSize
    tokenSize := bandwidth / Throttling.TokenBucketSize }

/-- One pass of `(*Throttler).Acquire`'s wait loop: enough tokens deducts the
rounded-up requirement and grants the full byte count; a positive but
insufficient balance is drained entirely for a partial grant; an empty bucket
makes the loop sleep for a refill interval and retry (`none` here). -/
def Throttler.Acquire (t : Throttler) (bytes : ℕ) : Option (ℕ × Throttler) :=
  let tokensNeeded := (bytes + t.tokenSize - 1) / t.tokenSize
  if t.tokens ≥ tokensNeeded then
    some (bytes, { t with tokens := t.tokens - tokensNeeded })
  else if t.tokens > 0 then
    some (t.tokens * t.tokenSize, { t with tokens := 0 })
  else
    none

/-! ## library/transfer.go -/

def TransferPending : String := "pending"

def TransferActive : String := "active"

def TransferCompleted : String := "completed"

def TransferFailed : String := "failed"

def TransferCancelled : String := "cancelled"

/-- `library.Transfer` (wall-clock fields `StartTime`/`EndTime` omitted). -/
structure Transfer where
  id : String
  cid : String
  fileName : String
  peerID : String
  direction : String
  status : String
  totalBytes : ℤ
  sentBytes : ℤ
  errorMsg : String
  progress : ℚ
deriving Repr, DecidableEq

/-- The streaming loop of `(*TransferManager).streamFile`: each chunk read from
the file is written to the connection and progress advances; a read or write
error fails the transfer immediately with the underlying cause; end of input
(EOF) leaves the loop and the status is set to completed.  The loop consults
nothing but the chunk stream — in particular it never looks at the transfer's
status. -/
def streamFile : List (Except String (List ℕ)) → Transfer → Transfer × Except String Unit
  | [], t => ({ t with status := TransferCompleted }, Except.ok ())
  | Except.error e :: _, t =>
      ({ t with status := TransferFailed, errorMsg := e }, Except.error e)
  | Except.ok c :: rest, t =>
      let sent := t.sentBytes + c.length
      streamFile rest
        { t with sentBytes := sent, progress := (sent : ℚ) / (t.totalBytes : ℚ) * 100 }

/-- The receive loop of `(*TransferManager).receiveFile`: chunks are appended
to the output file while fewer than `fileSize` bytes have arrived; an
exhausted stream (EOF) leaves the loop.  Returns the byte count, the written
file content and the updated transfer record. -/
def receiveLoop (fileSize : ℤ) : List (List ℕ) → ℤ → List ℕ → Transfer →
    ℤ × List ℕ × Transfer
  | [], received, content, t => (received, content, t)
  | c :: rest, received, content, t =>
      if received < fileSize then
        let received1 := received + c.length
        receiveLoop fileSize rest received1 (content ++ c)
          { t with sentBytes := received1
                   progress := (received1 : ℚ) / (fileSize : ℚ) * 100 }
      else (received, content, t)

/-- `(*TransferManager).receiveFile` after the bytes have been received: the
digest of the written file is recomputed (`utils.HashFile`, the same SHA-256
digest abstracted as `hash`) and compared with the expected checksum.  A
mismatch removes the output file (`none`), marks the transfer failed with
"Checksum verification failed" and returns the error; a match marks it
completed.  Mid-stream I/O errors are surfaced by the loop before this point
and are not modelled here because a clean stream is assumed by the claim. -/
def receiveFile (hash : List ℕ → String) (chunks : List (List ℕ)) (fileSize : ℤ)
    (checksum : String) (t : Transfer) :
    Option (List ℕ) × Transfer × Except String Unit :=
  let out := receiveLoop fileSize chunks 0 [] t
  let content := out.2.1
  let t1 := out.2.2
  let computedChecksum := hash content
  if computedChecksum != checksum then
    (none,
     { t1 with status := TransferFailed, errorMsg := "Checksum verification failed" },
     Except.error "checksum verification failed")
  else
    (some content, { t1 with status := TransferCompleted }, Except.ok ())

/-- Replace the transfer stored under `id`. -/
def setTransfer : List (String × Transfer) → String → Transfer →
    List (String × Transfer)
  | [], _, _ => []
  | kv :: rest, id, t =>
      if kv.1 == id then (id, t) :: rest else kv :: setTransfer rest id t

/-- `(*TransferManager).GetTransfer`. -/
def getTransfer (ts : List (String × Transfer)) (id : String) : Option Transfer :=
  (ts.find? (fun kv => kv.1 == id)).map (fun kv => kv.2)

/-- `(*TransferManager).CancelTransfer`: unknown id and non-active status are
rejected with an error and leave the table unchanged; an active transfer's
status becomes cancelled. -/
def CancelTransfer (ts : List (String × Transfer)) (id : String) :
    List (String × Transfer) × Except String Unit :=
  match getTransfer ts id with
  | none => (ts, Except.error ("transfer not found: " ++ id))
  | some t =>
      if t.status != TransferActive then
        (ts, Except.error "transfer is not active")
      else
        (setTransfer ts id { t with status := TransferCancelled }, Except.ok ())

/-- `(*TransferManager).completeTransfer` (the deferred finaliser): promotes an
active transfer to completed and otherwise leaves the status alone. -/
def completeTransfer (ts : List (String × Transfer)) (id : String) :
    List (String × Transfer) :=
  match getTransfer ts id with
  | none => ts
  | some t =>
      if t.status == TransferActive then
        setTransfer ts id { t with status := TransferCompleted }
      else ts

/-! ## Concrete sample values used by individual claims -/

/-- A placeholder digest function for concrete evaluations: the claims that
use it only ever hash one content value, for which any function is a faithful
instance of the SHA-256 parameter. -/
def constHash : List ℕ → String := fun _ => "h"

/-- A concrete active upload transfer. -/
def tActive : Transfer :=
  { id := "t1"
    cid := "c"
    fileName := "f"
    peerID := "p"
    direction := "upload"
    status := TransferActive
    totalBytes := 2
    sentBytes := 0
    errorMsg := ""
    progress := 0 }

/-- `tActive` after a successful `CancelTransfer`. -/
def tCancelled : Transfer :=
  { tActive with status := TransferCancelled }

end KX

namespace KX

/-! ## Theorems -/

/-- Helper: `checkLeecherStatus` never touches the reputation score. -/
theorem checkLeecherStatus_score (s : Student) :
    (s.checkLeecherStatus).reputationScore = s.reputationScore := by
  simp only [Student.checkLeecherStatus]
  split
  · rfl
  · split <;> rfl

/-- Helper: one `UpdateReputation` lands in `[0, 10]` whatever the delta. -/
theorem updateReputation_mem_range (s : Student) (delta : ℚ) :
    0 ≤ (s.UpdateReputation delta).reputationScore ∧
    (s.UpdateReputation delta).reputationScore ≤ 10 := by
  simp only [Student.UpdateReputation]
  rw [checkLeecherStatus_score]
  unfold Models.MaxReputation
  split_ifs with h1 h2
  · norm_num
  · norm_num
  · rw [gt_iff_lt, not_lt] at h1
    rw [not_lt] at h2
    exact ⟨h2, h1⟩

/-- Helper: `updateStudentRep` preserves the score range invariant. -/
theorem updateStudentRep_range (l : List Student) (sid : String) (d : ℚ)
    (h : ∀ s ∈ l, 0 ≤ s.reputationScore ∧ s.reputationScore ≤ 10) :
    ∀ s ∈ updateStudentRep l sid d,
      0 ≤ s.reputationScore ∧ s.reputationScore ≤ 10 := by
  induction l with
  | nil => simp [updateStudentRep]
  | cons a rest ih =>
    intro s hs
    simp only [updateStudentRep] at hs
    by_cases hid : (a.id == sid) = true
    · rw [if_pos hid] at hs
      rcases List.mem_cons.mp hs with h1 | h2
      · rw [h1]; exact updateReputation_mem_range a d
      · exact h s (List.mem_cons_of_mem _ h2)
    · rw [if_neg hid] at hs
      rcases List.mem_cons.mp hs with h1 | h2
      · rw [h1]; exact h a (List.mem_cons_self _ _)
      · exact ih (fun x hx => h x (List.mem_cons_of_mem _ hx)) s h2

/-- C10: a peer created by `NewStudent` starts with reputation exactly 5.0,
online, not a leecher, and zero upload and download counters; its effective
score under `CalculateReputation` is 5.0 (the ratio adjustment is skipped when
downloads are zero), so it passes both the `Student.CanDownload` gate and the
service-level `ReputationService.CanDownload` gate immediately. -/
theorem newStudent_defaults_pass_gate (id name ip : String) (port : ℕ) :
    (NewStudent id name ip port).reputationScore = 5 ∧
    (NewStudent id name ip port).isOnline = true ∧
    (NewStudent id name ip port).isLeecher = false ∧
    (NewStudent id name ip port).totalUploads = 0 ∧
    (NewStudent id name ip port).totalDownloads = 0 ∧
    ReputationService.CalculateReputation (NewStudent id name ip port) = 5 ∧
    (NewStudent id name ip port).CanDownload = true ∧
    ReputationService.CanDownload [NewStudent id name ip port] id = (true, "Allowed") := by
  refine ⟨rfl, rfl, rfl, rfl, rfl, by norm_num [ReputationService.CalculateReputation,
    NewStudent, Analytics.MinReputation, Analytics.MaxReputation,
    Models.DefaultReputation], by norm_num [Student.CanDownload, NewStudent,
    Models.MinReputation, Models.DefaultReputation], ?_⟩
  simp only [ReputationService.CanDownload, findStudent, NewStudent, List.find?,
    ReputationService.CalculateReputation, Analytics.MinReputation,
    Analytics.MaxReputation, Analytics.DownloadThreshold, Models.DefaultReputation]
  norm_num

/-- C5 counterexample: removing the only peer location and then adding a fresh
one leaves `is_available` false although `peer_locations` is non-empty —
`AddPeerLocation` never recomputes availability, refuting the claimed
invariant "is_available iff peer_locations non-empty after any sequence". -/
theorem c5_add_after_remove_leaves_unavailable :
    ((((NewAcademicFile constHash "n" "A" 1 ".pdf" [0]).RemovePeerLocation
        "A").AddPeerLocation "B").peerLocations = ["B"]) ∧
    ((((NewAcademicFile constHash "n" "A" 1 ".pdf" [0]).RemovePeerLocation
        "A").AddPeerLocation "B").isAvailable = false) := by
  decide

/-- C5 amended: `AddPeerLocation` and `RemovePeerLocation` are idempotent
set-membership updates; after every `RemovePeerLocation` call `is_available`
equals the non-emptiness of `peer_locations` (so removing the last location
makes it false), but `AddPeerLocation` leaves `is_available` untouched, so
adding a location to a file whose list was emptied does not make it true. -/
theorem c5_peer_location_updates (f : AcademicFile) (p : String) :
    ((f.RemovePeerLocation p).isAvailable =
      !(f.RemovePeerLocation p).peerLocations.isEmpty) ∧
    ((f.AddPeerLocation p).isAvailable = f.isAvailable) ∧
    ((f.AddPeerLocation p).AddPeerLocation p = f.AddPeerLocation p) ∧
    ((f.RemovePeerLocation p).RemovePeerLocation p = f.RemovePeerLocation p) := by
  refine ⟨?_, ?_, ?_, ?_⟩
  · simp only [AcademicFile.RemovePeerLocation]
    cases f.peerLocations.filter (fun pid => pid != p) <;> simp
  · simp only [AcademicFile.AddPeerLocation]
    split <;> rfl
  · by_cases hm : p ∈ f.peerLocations
    · simp [AcademicFile.AddPeerLocation, hm]
    · simp [AcademicFile.AddPeerLocation, hm]
  · simp only [AcademicFile.RemovePeerLocation, List.filter_filter]
    simp

/-- C4 (code bug, evaluated at the failing inputs): `Search` misses a file
whose name contains the query in different letter case (query "ABC" against
file name "abc" returns nothing although the name contains the query
case-insensitively), and returns a file none of whose fields contains the
query (query "zz" against file name "abcd") — `containsIgnoreCase` never
inspects the characters, contradicting its own documentation. -/
theorem c4_search_ignores_content :
    (FileIndex.Search
        (FileIndex.Add ⟨[]⟩ (NewAcademicFile constHash "abc" "o" 1 ".pdf" [0]))
        "ABC" = []) ∧
    specContainsIgnoreCase "abc" "ABC" = true ∧
    (FileIndex.Search
        (FileIndex.Add ⟨[]⟩ (NewAcademicFile constHash "abcd" "o" 1 ".pdf" [0]))
        "zz" = [NewAcademicFile constHash "abcd" "o" 1 ".pdf" [0]]) ∧
    specContainsIgnoreCase "abcd" "zz" = false ∧
    specContainsIgnoreCase "" "zz" = false := by
  decide

/-- C6 counterexample: two uploads of the identical bytes by distinct owners
produce equal CIDs and a single index record, but `FileIndex.Add` overwrites,
so the surviving record's `peer_locations` holds only the second uploader —
the first uploader "A" is not among the locations, refuting the claim. -/
theorem c6_second_upload_overwrites_locations :
    ((NewAcademicFile constHash "n" "A" 2 ".pdf" [1, 2]).cid =
      (NewAcademicFile constHash "n" "B" 2 ".pdf" [1, 2]).cid) ∧
    ((FileIndex.Add (FileIndex.Add ⟨[]⟩ (NewAcademicFile constHash "n" "A" 2 ".pdf" [1, 2]))
        (NewAcademicFile constHash "n" "B" 2 ".pdf" [1, 2])).files.length = 1) ∧
    (FileIndex.Get
        (FileIndex.Add (FileIndex.Add ⟨[]⟩ (NewAcademicFile constHash "n" "A" 2 ".pdf" [1, 2]))
          (NewAcademicFile constHash "n" "B" 2 ".pdf" [1, 2]))
        (NewAcademicFile constHash "n" "A" 2 ".pdf" [1, 2]).cid =
      some (NewAcademicFile constHash "n" "B" 2 ".pdf" [1, 2])) ∧
    ((NewAcademicFile constHash "n" "B" 2 ".pdf" [1, 2]).peerLocations.contains "A" = false) := by
  decide

/-- C6 amended: the CID computed for given content bytes is deterministic (two
`NewAcademicFile` constructions over equal bytes carry equal CIDs), and after
uploading identical bytes twice via `FileIndex.Add` the index holds exactly one
record under that CID — the second upload's record, whose `peer_locations`
contains only the second uploader, the first uploader's location having been
overwritten. -/
theorem c6_duplicate_upload_single_record (hash : List ℕ → String)
    (n1 n2 ownerA ownerB : String) (sz : ℤ) (ft : String) (c : List ℕ) (fi : FileIndex) :
    ((NewAcademicFile hash n1 ownerA sz ft c).cid =
      (NewAcademicFile hash n2 ownerB sz ft c).cid) ∧
    (((fi.Add (NewAcademicFile hash n1 ownerA sz ft c)).Add
        (NewAcademicFile hash n2 ownerB sz ft c)).files.filter
          (fun kv => kv.1 == (NewAcademicFile hash n1 ownerA sz ft c).cid) =
      [((NewAcademicFile hash n2 ownerB sz ft c).cid,
        NewAcademicFile hash n2 ownerB sz ft c)]) ∧
    (FileIndex.Get
        ((fi.Add (NewAcademicFile hash n1 ownerA sz ft c)).Add
          (NewAcademicFile hash n2 ownerB sz ft c))
        (NewAcademicFile hash n1 ownerA sz ft c).cid =
      some (NewAcademicFile hash n2 ownerB sz ft c)) ∧
    ((NewAcademicFile hash n2 ownerB sz ft c).peerLocations = [ownerB]) := by
  refine ⟨rfl, ?_, ?_, rfl⟩
  · simp [FileIndex.Add, NewAcademicFile, List.filter_filter]
  · simp [FileIndex.Get, FileIndex.Add, NewAcademicFile, List.find?]

/-- C9 counterexample: a freshly created peer that records two downloads has
2 downloads and 0 uploads, so downloads exceed three times uploads, yet
`checkLeecherStatus` leaves `is_leecher` false (the zero-upload branch only
fires above 5 downloads). -/
theorem c9_small_leecher_not_flagged :
    (((NewStudent "a" "n" "ip" 1).RecordDownload).RecordDownload).totalDownloads = 2 ∧
    (((NewStudent "a" "n" "ip" 1).RecordDownload).RecordDownload).totalUploads = 0 ∧
    2 > 3 * 0 ∧
    (((NewStudent "a" "n" "ip" 1).RecordDownload).RecordDownload).isLeecher = false := by
  decide

/-- C9 amended: `checkLeecherStatus` never changes the flag of a peer with zero
downloads and zero uploads; with positive uploads it sets the flag exactly to
"downloads exceed three times uploads"; with zero uploads it sets the flag only
above 5 downloads and otherwise leaves it unchanged (so a peer with 1–5
downloads and no uploads is not flagged although downloads exceed 3x uploads). -/
theorem c9_checkLeecherStatus_rules (s : Student) :
    (s.totalDownloads = 0 → (s.checkLeecherStatus).isLeecher = s.isLeecher) ∧
    (0 < s.totalDownloads → 0 < s.totalUploads →
      (s.checkLeecherStatus).isLeecher =
        decide ((s.totalDownloads : ℚ) / (s.totalUploads : ℚ) > 3)) ∧
    (0 < s.totalUploads → 3 * s.totalUploads < s.totalDownloads →
      (s.checkLeecherStatus).isLeecher = true) ∧
    (s.totalUploads = 0 → 5 < s.totalDownloads →
      (s.checkLeecherStatus).isLeecher = true) ∧
    (s.totalUploads = 0 → s.totalDownloads ≤ 5 →
      (s.checkLeecherStatus).isLeecher = s.isLeecher) := by
  refine ⟨?_, ?_, ?_, ?_, ?_⟩
  · intro h0
    have h1 : ¬(s.totalDownloads > 0 ∧ s.totalUploads > 0) := by omega
    have h2 : ¬(s.totalDownloads > 5 ∧ s.totalUploads = 0) := by omega
    simp [Student.checkLeecherStatus, h1, h2]
  · intro hd hu
    simp [Student.checkLeecherStatus, hd, hu]
  · intro hu hd
    have hd0 : 0 < s.totalDownloads := by omega
    have hq : (3 : ℚ) < (s.totalDownloads : ℚ) / (s.totalUploads : ℚ) := by
      rw [lt_div_iff₀ (by exact_mod_cast hu)]
      exact_mod_cast (by omega : 3 * s.totalUploads < s.totalDownloads)
    simp [Student.checkLeecherStatus, hd0, hu, hq]
  · intro hu hd
    have h1 : ¬(s.totalDownloads > 0 ∧ s.totalUploads > 0) := by omega
    simp [Student.checkLeecherStatus, h1, hu, hd]
  · intro hu hd
    have h1 : ¬(s.totalDownloads > 0 ∧ s.totalUploads > 0) := by omega
    have h2 : ¬(s.totalDownloads > 5 ∧ s.totalUploads = 0) := by omega
    simp [Student.checkLeecherStatus, h1, h2]

/-- C9 witness: the amended flagging rule evaluated at a peer with 1 upload
and 4 downloads (downloads exceed three times uploads, so flagged). -/
theorem c9_checkLeecherStatus_rules_witness :
    (Student.checkLeecherStatus
      { NewStudent "a" "n" "ip" 1 with totalUploads := 1, totalDownloads := 4 }).isLeecher
      = true :=
  (c9_checkLeecherStatus_rules
    { NewStudent "a" "n" "ip" 1 with totalUploads := 1, totalDownloads := 4 }).2.2.1
    (by decide) (by decide)

/-- C1: starting from any registry whose stored reputation scores lie in
`[0, 10]` (as every `NewStudent`-created peer does), applying any sequence of
reputation events — upload, download, rating, leeching, inactivity decay,
each flowing through `ReputationService.applyEvent` into
`Student.UpdateReputation` — leaves every stored score in `[0, 10]`; since
every prefix of the sequence is itself such a sequence, the bound holds after
each application, regardless of the deltas' signs and magnitudes. -/
theorem c1_reputation_stays_clamped (st : RepState) (events : List ReputationEvent)
    (h : ∀ s ∈ st.registry, 0 ≤ s.reputationScore ∧ s.reputationScore ≤ 10) :
    ∀ s ∈ (events.foldl ReputationService.applyEvent st).registry,
      0 ≤ s.reputationScore ∧ s.reputationScore ≤ 10 := by
  induction events generalizing st with
  | nil => exact h
  | cons e rest ih =>
    rw [List.foldl_cons]
    refine ih _ ?_
    rcases hfs : findStudent st.registry e.studentID with _ | s0 <;>
      simp only [ReputationService.applyEvent, hfs]
    · exact h
    · exact updateStudentRep_range _ _ _ h

/-- C1 witness: a fresh one-peer registry satisfies the range hypothesis, and
after an event with a huge positive delta the stored score is still in
`[0, 10]`. -/
theorem c1_reputation_stays_clamped_witness :
    (∀ s ∈ ([NewStudent "a" "n" "ip" 1] : List Student),
      0 ≤ s.reputationScore ∧ s.reputationScore ≤ 10) ∧
    (∀ s ∈ (([⟨"UPLOAD", "a", 100, "r"⟩] : List ReputationEvent).foldl
        ReputationService.applyEvent ⟨[NewStudent "a" "n" "ip" 1], []⟩).registry,
      0 ≤ s.reputationScore ∧ s.reputationScore ≤ 10) :=
  ⟨by decide, c1_reputation_stays_clamped ⟨[NewStudent "a" "n" "ip" 1], []⟩
    [⟨"UPLOAD", "a", 100, "r"⟩] (by decide)⟩

/-- C2: `ReputationService.CanDownload` denies an unknown peer with "Student
not found"; for a registered peer it allows exactly when the effective score
(`CalculateReputation`: base adjusted by the upload/download ratio and clamped
to `[0, 10]`) is at least 3.0; on denial the reason string embeds the
effective score against the 3.0 threshold (the numeric gap), and the boundary
scores 2.9 / 3.0 / 3.1 are denied / allowed / allowed. -/
theorem c2_canDownload_threshold (registry : List Student) (studentID : String) :
    (findStudent registry studentID = none →
      ReputationService.CanDownload registry studentID = (false, "Student not found")) ∧
    (∀ s, findStudent registry studentID = some s →
      ((ReputationService.CanDownload registry studentID).1 = true ↔
        3 ≤ ReputationService.CalculateReputation s)) ∧
    (∀ s, findStudent registry studentID = some s →
      ReputationService.CalculateReputation s < 3 →
      ReputationService.CanDownload registry studentID =
        (false, "Insufficient reputation (" ++
          fmtOneDecimal (ReputationService.CalculateReputation s) ++ " < 3.0)")) ∧
    (ReputationService.CanDownload
      [{ NewStudent "s" "n" "ip" 1 with reputationScore := mkRat 29 10 }] "s" =
      (false, "Insufficient reputation (2.9 < 3.0)")) ∧
    ((ReputationService.CanDownload
      [{ NewStudent "s" "n" "ip" 1 with reputationScore := 3 }] "s").1 = true) ∧
    ((ReputationService.CanDownload
      [{ NewStudent "s" "n" "ip" 1 with reputationScore := mkRat 31 10 }] "s").1 = true) := by
  refine ⟨?_, ?_, ?_, by decide, by decide, by decide⟩
  · intro hnone
    simp [ReputationService.CanDownload, hnone]
  · intro s hfs
    simp only [ReputationService.CanDownload, hfs, Analytics.DownloadThreshold]
    split_ifs with hlt
    · simp [not_le.mpr hlt]
    · simp [not_lt.mp hlt]
  · intro s hfs hlt
    simp only [ReputationService.CanDownload, hfs, Analytics.DownloadThreshold]
    rw [if_pos hlt]
    refine Prod.ext rfl ?_
    show _ ++ _ ++ _ ++ fmtOneDecimal Analytics.DownloadThreshold ++ ")" = _
    have h30 : fmtOneDecimal Analytics.DownloadThreshold = "3.0" := by decide
    rw [h30, String.append_assoc, String.append_assoc]
    rw [show (" < " ++ ("3.0" ++ ")") : String) = " < 3.0)" from rfl]

/-- C2 witness: the unknown-peer branch at a concrete empty registry, obtained
from the theorem. -/
theorem c2_canDownload_threshold_witness :
    ReputationService.CanDownload [] "x" = (false, "Student not found") ∧
    ReputationService.CanDownload
      [{ NewStudent "s" "n" "ip" 1 with reputationScore := mkRat 29 10 }] "s" =
      (false, "Insufficient reputation (2.9 < 3.0)") :=
  ⟨(c2_canDownload_threshold [] "x").1 rfl,
   (c2_canDownload_threshold [] "x").2.2.2.1⟩

/-- C3: after `receiveFile`'s receive loop has drained the stream, the digest
of the received bytes is recomputed and compared with the expected checksum;
a mismatch removes the output file, marks the transfer failed with the
integrity-failure reason "Checksum verification failed" and returns an error,
while a match marks the transfer completed. -/
theorem c3_receiveFile_integrity (hash : List ℕ → String) (chunks : List (List ℕ))
    (fileSize : ℤ) (checksum : String) (t : Transfer) :
    (hash (receiveLoop fileSize chunks 0 [] t).2.1 ≠ checksum →
      (receiveFile hash chunks fileSize checksum t).1 = none ∧
      (receiveFile hash chunks fileSize checksum t).2.1.status = TransferFailed ∧
      (receiveFile hash chunks fileSize checksum t).2.1.errorMsg =
        "Checksum verification failed" ∧
      (receiveFile hash chunks fileSize checksum t).2.2 =
        Except.error "checksum verification failed") ∧
    (hash (receiveLoop fileSize chunks 0 [] t).2.1 = checksum →
      (receiveFile hash chunks fileSize checksum t).1 =
        some (receiveLoop fileSize chunks 0 [] t).2.1 ∧
      (receiveFile hash chunks fileSize checksum t).2.1.status = TransferCompleted ∧
      (receiveFile hash chunks fileSize checksum t).2.2 = Except.ok ()) := by
  constructor
  · intro hne
    simp only [receiveFile]
    rw [if_pos (by simpa using hne)]
    exact ⟨rfl, rfl, rfl, rfl⟩
  · intro heq
    simp only [receiveFile]
    rw [if_neg (by simp [heq])]
    exact ⟨rfl, rfl, rfl⟩

/-- C3 witness: on a one-chunk stream, a wrong expected checksum discards the
file and fails the transfer; the matching checksum completes it. -/
theorem c3_receiveFile_integrity_witness :
    (receiveFile constHash [[1]] 1 "x" tActive).1 = none ∧
    (receiveFile constHash [[1]] 1 "x" tActive).2.1.status = TransferFailed ∧
    (receiveFile constHash [[1]] 1 "h" tActive).2.1.status = TransferCompleted :=
  ⟨((c3_receiveFile_integrity constHash [[1]] 1 "x" tActive).1 (by decide)).1,
   ((c3_receiveFile_integrity constHash [[1]] 1 "x" tActive).1 (by decide)).2.1,
   ((c3_receiveFile_integrity constHash [[1]] 1 "h" tActive).2 (by decide)).2.1⟩

/-- Helper: the rounded-up token requirement covers the requested bytes. -/
theorem ceil_tokens_cover (b ts : ℕ) (hb : 0 < b) (hts : 0 < ts) :
    b ≤ ((b + ts - 1) / ts) * ts := by
  have hdm := Nat.div_add_mod (b + ts - 1) ts
  have hmod := Nat.mod_lt (b + ts - 1) hts
  rw [Nat.mul_comm] at hdm
  generalize (b + ts - 1) / ts * ts = m at hdm ⊢
  generalize (b + ts - 1) % ts = r at hdm hmod
  omega

/-- Helper: one token fewer than the rounded-up requirement no longer covers
the requested bytes. -/
theorem ceil_tokens_minimal (b ts : ℕ) (hb : 0 < b) (hts : 0 < ts) :
    (((b + ts - 1) / ts) - 1) * ts < b := by
  have h2 : (b + ts - 1) / ts * ts ≤ b + ts - 1 := Nat.div_mul_le_self _ _
  rw [Nat.sub_mul, Nat.one_mul]
  generalize (b + ts - 1) / ts * ts = m at h2 ⊢
  omega

/-- C7: for a positive request of `b` bytes, `Acquire` with a full-enough
bucket consumes exactly `ceil(b / token_size)` tokens (the characterised
minimal covering count) and grants all `b` bytes; with a positive but
insufficient balance it returns a partial grant of exactly the available
tokens' worth — never more than the balance permits and never more than `b` —
instead of blocking (an empty bucket makes the loop wait for a refill). -/
theorem c7_acquire_grants (t : Throttler) (bytes : ℕ)
    (hb : 0 < bytes) (hts : 0 < t.tokenSize) :
    (bytes ≤ ((bytes + t.tokenSize - 1) / t.tokenSize) * t.tokenSize ∧
      (((bytes + t.tokenSize - 1) / t.tokenSize) - 1) * t.tokenSize < bytes) ∧
    (t.tokens ≥ (bytes + t.tokenSize - 1) / t.tokenSize →
      t.Acquire bytes = some (bytes,
        { t with tokens := t.tokens - (bytes + t.tokenSize - 1) / t.tokenSize })) ∧
    (t.tokens < (bytes + t.tokenSize - 1) / t.tokenSize → 0 < t.tokens →
      t.Acquire bytes = some (t.tokens * t.tokenSize, { t with tokens := 0 }) ∧
      t.tokens * t.tokenSize ≤ bytes) := by
  refine ⟨⟨ceil_tokens_cover bytes t.tokenSize hb hts,
    ceil_tokens_minimal bytes t.tokenSize hb hts⟩, ?_, ?_⟩
  · intro hge
    simp only [Throttler.Acquire]
    rw [if_pos hge]
  · intro hlt htok
    constructor
    · simp only [Throttler.Acquire]
      rw [if_neg (not_le.mpr hlt), if_pos htok]
    · have h1 : t.tokens ≤ (bytes + t.tokenSize - 1) / t.tokenSize - 1 := by omega
      calc t.tokens * t.tokenSize
          ≤ ((bytes + t.tokenSize - 1) / t.tokenSize - 1) * t.tokenSize :=
            Nat.mul_le_mul_right _ h1
        _ ≤ bytes := Nat.le_of_lt (ceil_tokens_minimal bytes t.tokenSize hb hts)

/-- C7 witness: a bucket of 3 tokens of 2 bytes each, asked for 10 bytes
(needing 5 tokens), grants exactly 6 bytes and empties the bucket. -/
theorem c7_acquire_grants_witness :
    Throttler.Acquire
      { peerID := "p", tier := BandwidthTier.normal, bandwidth := 20,
        tokens := 3, maxTokens := 10, tokenSize := 2 } 10 =
      some (6,
        { peerID := "p", tier := BandwidthTier.normal, bandwidth := 20,
          tokens := 0, maxTokens := 10, tokenSize := 2 }) ∧
    6 ≤ 10 :=
  ⟨((c7_acquire_grants
      { peerID := "p", tier := BandwidthTier.normal, bandwidth := 20,
        tokens := 3, maxTokens := 10, tokenSize := 2 } 10
      (by decide) (by decide)).2.2 (by decide) (by decide)).1,
   by decide⟩

/-- Helper: overwriting the entry found under `id` makes later lookups return
the new transfer. -/
theorem getTransfer_setTransfer (ts : List (String × Transfer)) (id : String)
    (t t' : Transfer) (h : getTransfer ts id = some t) :
    getTransfer (setTransfer ts id t') id = some t' := by
  induction ts with
  | nil => simp [getTransfer] at h
  | cons kv rest ih =>
    by_cases hk : (kv.1 == id) = true
    · simp [getTransfer, setTransfer, hk]
    · have hk' : (kv.1 == id) = false := by simpa using hk
      simp only [getTransfer, setTransfer, List.find?, hk', Bool.false_eq_true,
        if_false] at h ⊢
      exact ih h

/-- C8 counterexample: cancelling the active transfer `tActive` yields status
cancelled, but the streaming loop does not observe the status — running it on
the cancelled transfer still moves bytes, and its final step overwrites the
status to completed, refuting "a terminal state that no later step of the
streaming loop overwrites and halts further byte movement". -/
theorem c8_cancelled_not_terminal_for_stream :
    (CancelTransfer [("t1", tActive)] "t1").1 = [("t1", tCancelled)] ∧
    tCancelled.status = TransferCancelled ∧
    (streamFile [] tCancelled).1.status = TransferCompleted ∧
    (streamFile [Except.ok [7]] tCancelled).1.sentBytes = tCancelled.sentBytes + 1 := by
  decide

/-- C8 amended: `CancelTransfer` on an unknown id or a non-active transfer is
rejected with an error leaving the table unchanged; on an active transfer it
transitions the status to cancelled, and the deferred `completeTransfer`
respects that (it only promotes active transfers) — but the streaming loop
itself never consults the status, so cancellation does not halt its byte
movement. -/
theorem c8_cancelTransfer_rules (ts : List (String × Transfer)) (id : String) :
    (getTransfer ts id = none →
      CancelTransfer ts id = (ts, Except.error ("transfer not found: " ++ id))) ∧
    (∀ t, getTransfer ts id = some t → t.status ≠ TransferActive →
      CancelTransfer ts id = (ts, Except.error "transfer is not active")) ∧
    (∀ t, getTransfer ts id = some t → t.status = TransferActive →
      CancelTransfer ts id =
        (setTransfer ts id { t with status := TransferCancelled }, Except.ok ()) ∧
      getTransfer (CancelTransfer ts id).1 id =
        some { t with status := TransferCancelled }) ∧
    (∀ t, getTransfer ts id = some t → t.status = TransferCancelled →
      getTransfer (completeTransfer ts id) id = some t) := by
  refine ⟨?_, ?_, ?_, ?_⟩
  · intro hnone
    simp [CancelTransfer, hnone]
  · intro t hfs hne
    simp only [CancelTransfer, hfs]
    rw [if_pos (by simpa using hne)]
  · intro t hfs hact
    have hcancel : CancelTransfer ts id =
        (setTransfer ts id { t with status := TransferCancelled }, Except.ok ()) := by
      simp only [CancelTransfer, hfs]
      rw [if_neg (by simp [hact])]
    exact ⟨hcancel, by
      rw [hcancel]
      exact getTransfer_setTransfer ts id t _ hfs⟩
  · intro t hfs hst
    have hne : (t.status == TransferActive) = false := by
      rw [hst]; decide
    simp only [completeTransfer, hfs, hne]
    rw [if_neg (by simp)]
    exact hfs

/-- C8 witness: the amended rules applied to a concrete one-entry transfer
table holding the active transfer `tActive`. -/
theorem c8_cancelTransfer_rules_witness :
    CancelTransfer [("t1", tActive)] "t1" =
      ([("t1", tCancelled)], Except.ok ()) ∧
    getTransfer (CancelTransfer [("t1", tActive)] "t1").1 "t1" = some tCancelled := by
  have h := (c8_cancelTransfer_rules [("t1", tActive)] "t1").2.2.1 tActive
    (by decide) (by decide)
  constructor
  · rw [h.1]; exact rfl
  · rw [h.2]; exact rfl

end KX
